import Mathlib

/-
Shallow embedding of the mlflow-rs client library (experiment-tracking client).

Source layout embedded here:
  * src/api/id.rs, src/api/run.rs, src/api/experiment.rs - domain records
  * src/tracking/run.rs                                  - TrackingRun buffer
  * src/backend/rest.rs                                  - REST backend (Server)
  * src/storage/server.rs                                - older storage backend
  * src/client.rs                                        - convenience wrapper

Machine floats (f64) appear in the source only as inert payload: the client
never inspects or computes with a metric value, it only stores and forwards
it.  They are therefore embedded as an opaque carrier of a bit pattern.
Timestamps produced by the ambient clock (the missing crate-level function
timestamp) are passed in as explicit arguments.
-/

namespace Mlflow

/-- Payload carrier for an f64 value: the code only moves metric values
around, never computes with them, so only identity of the bit pattern
matters. -/
structure F64 where
  bits : Int
deriving DecidableEq, Repr

/-- ExperimentId from src/api/id.rs: a transparent wrapper around a string. -/
structure ExperimentId where
  val : String
deriving DecidableEq, Repr

/-- RunId from src/api/id.rs: a transparent wrapper around a string. -/
structure RunId where
  val : String
deriving DecidableEq, Repr

/-- Metric record from src/api/run.rs. -/
structure Metric where
  key : String
  value : F64
  timestamp : Int
  step : Int
deriving DecidableEq, Repr

/-- Param record from src/api/run.rs. -/
structure Param where
  key : String
  value : String
deriving DecidableEq, Repr

/-- RunTag record from src/api/run.rs. -/
structure RunTag where
  key : String
  value : String
deriving DecidableEq, Repr

/-- RunStatus from src/api/run.rs. -/
inductive RunStatus where
  | Running
  | Scheduled
  | Finished
  | Failed
  | Killed
deriving DecidableEq, Repr

/-- RunInfo record from src/api/run.rs. -/
structure RunInfo where
  run_id : RunId
  run_uuid : String
  experiment_id : ExperimentId
  user_id : String
  status : RunStatus
  start_time : Int
  end_time : Option Int
  artifact_uri : String
  lifecycle_stage : String
deriving DecidableEq, Repr

/-- RunData record from src/api/run.rs. -/
structure RunData where
  metrics : Option (List Metric)
  params : Option (List Param)
  tags : Option (List RunTag)
deriving DecidableEq, Repr

/-- Run record from src/api/run.rs. -/
structure Run where
  info : RunInfo
  data : RunData
deriving DecidableEq, Repr

/-- ExperimentTag record from src/api/experiment.rs. -/
structure ExperimentTag where
  key : String
  value : String
deriving DecidableEq, Repr

/-- Experiment record from src/api/experiment.rs. -/
structure Experiment where
  experiment_id : ExperimentId
  name : String
  artifact_location : String
  lifecycle_stage : String
  last_update_time : Option Int
  creation_time : Option Int
  tags : Option (List ExperimentTag)
deriving DecidableEq, Repr

namespace limits

/-- Modelled from the spec: the module crate::api::limits is referenced by
src/tracking/run.rs and src/backend/rest.rs but its file is not under src/.
Spec 4.1 and 6 fix the batch limits: metrics <= 1000 per request. -/
def BATCH_METRICS : Nat := 1000

/-- Modelled from the spec: params <= 100 per request (spec 4.1 and 6). -/
def BATCH_PARAMS : Nat := 100

/-- Modelled from the spec: tags <= 100 per request (spec 4.1 and 6). -/
def BATCH_TAGS : Nat := 100

/-- Modelled from the spec: combined items <= 1000 per request (spec 4.1
and 6). -/
def BATCH_TOTAL : Nat := 1000

end limits

/-- TrackingRun from src/tracking/run.rs: the client-side buffer of params,
tags and metric chunks. -/
structure TrackingRun where
  start_time : Int
  param_buffer : List Param
  tag_buffer : List RunTag
  metric_buffer : List (List Metric)
deriving DecidableEq, Repr

namespace TrackingRun

/-- TrackingRun::new; the ambient clock value is the argument ts. -/
def new (ts : Int) : TrackingRun :=
  { start_time := ts
    param_buffer := []
    tag_buffer := []
    metric_buffer := [[]] }

/-- TrackingRun::log_param; the assert on the param cap is modelled as
returning none (the Rust code aborts fatally there). -/
def log_param (tr : TrackingRun) (key value : String) : Option TrackingRun :=
  if tr.param_buffer.length < limits.BATCH_PARAMS then
    some { tr with param_buffer := tr.param_buffer ++ [{ key := key, value := value }] }
  else
    none

/-- TrackingRun::log_tag; the assert on the tag cap is modelled as
returning none. -/
def log_tag (tr : TrackingRun) (key value : String) : Option TrackingRun :=
  if tr.tag_buffer.length < limits.BATCH_TAGS then
    some { tr with tag_buffer := tr.tag_buffer ++ [{ key := key, value := value }] }
  else
    none

/-- TrackingRun::log_metric; ts is the clock value captured at call time.
The two .unwrap() calls on the last chunk are modelled by the Option
binds: none models a panic of unwrap on an empty chunk list. -/
def log_metric (tr : TrackingRun) (key : String) (value : F64) (step : Int)
    (ts : Int) : Option TrackingRun := do
  let last ← tr.metric_buffer.getLast?
  let buf :=
    if last.length = limits.BATCH_METRICS then tr.metric_buffer ++ [[]]
    else tr.metric_buffer
  let last2 ← buf.getLast?
  let metric : Metric := { key := key, value := value, timestamp := ts, step := step }
  some { tr with metric_buffer := buf.dropLast ++ [last2 ++ [metric]] }

end TrackingRun

/-- One buffering call on a TrackingRun (for stating properties of arbitrary
call sequences). -/
inductive LogOp where
  | param (key value : String)
  | tag (key value : String)
  | metric (key : String) (value : F64) (step : Int) (ts : Int)
deriving DecidableEq, Repr

/-- Dispatch one LogOp to the corresponding TrackingRun method. -/
def TrackingRun.apply (tr : TrackingRun) : LogOp → Option TrackingRun
  | .param k v => tr.log_param k v
  | .tag k v => tr.log_tag k v
  | .metric k v s ts => tr.log_metric k v s ts

/-- Run a sequence of buffering calls, stopping at a failed assertion. -/
def TrackingRun.applyAll (tr : TrackingRun) : List LogOp → Option TrackingRun
  | [] => some tr
  | op :: ops => (tr.apply op).bind (fun tr2 => tr2.applyAll ops)

/-- The metrics a call sequence logs, as records, in call order. -/
def loggedMetrics (ops : List LogOp) : List Metric :=
  ops.filterMap fun op =>
    match op with
    | .metric k v s ts => some { key := k, value := v, timestamp := ts, step := s }
    | _ => none

/-- One network call a TrackingRun::submit issues through the Client trait,
with its full argument list. -/
inductive Call where
  | create_run (experiment : ExperimentId) (start_time : Int) (tags : List RunTag)
  | log_batch (run : RunId) (metrics : List Metric) (params : List Param)
      (tags : List RunTag)
  | update_run (run : RunId) (status : RunStatus) (end_time : Int)
deriving DecidableEq, Repr

/-- A stub implementation of the Client trait (src/api/client.rs), giving the
response for each call submit can make; the error type is abstract, as the
anyhow error is opaque to the caller. -/
structure ClientOracle (ε : Type) where
  create_run : ExperimentId → Int → List RunTag → Except ε Run
  log_batch : RunId → List Metric → List Param → List RunTag → Except ε Unit
  update_run : RunId → RunStatus → Int → Except ε RunInfo

/-- The for-loop inside TrackingRun::submit: one log_batch call per metric
chunk, in chunk order, stopping at the first error.  Returns the loop's
outcome together with the calls it issued. -/
def flush_chunks {ε : Type} (c : ClientOracle ε) (id : RunId) :
    List (List Metric) → Except ε Unit × List Call
  | [] => (Except.ok (), [])
  | chunk :: rest =>
    match c.log_batch id chunk [] [] with
    | .error e => (.error e, [Call.log_batch id chunk [] []])
    | .ok _ =>
      let r := flush_chunks c id rest
      (r.1, Call.log_batch id chunk [] [] :: r.2)

/-- TrackingRun::submit from src/tracking/run.rs, instrumented with the trace
of calls it issues; now is the clock value read for the final update_run. -/
def TrackingRun.submit {ε : Type} (tr : TrackingRun) (c : ClientOracle ε)
    (experiment : ExperimentId) (now : Int) : Except ε Run × List Call :=
  let call1 := Call.create_run experiment tr.start_time []
  match c.create_run experiment tr.start_time [] with
  | .error e => (.error e, [call1])
  | .ok run =>
    let id := run.info.run_id
    let call2 := Call.log_batch id [] tr.param_buffer tr.tag_buffer
    match c.log_batch id [] tr.param_buffer tr.tag_buffer with
    | .error e => (.error e, [call1, call2])
    | .ok _ =>
      let r := flush_chunks c id tr.metric_buffer
      match r.1 with
      | .error e => (.error e, call1 :: call2 :: r.2)
      | .ok _ =>
        let call3 := Call.update_run id RunStatus.Finished now
        match c.update_run id RunStatus.Finished now with
        | .error e => (.error e, call1 :: call2 :: (r.2 ++ [call3]))
        | .ok info =>
            (.ok { run with info := info }, call1 :: call2 :: (r.2 ++ [call3]))

/-- JSON values, at the level the serialization layer works with (text
parsing and printing are delegated to serde_json and out of scope; numbers
appearing in the embedded records are 64-bit integers). -/
inductive Json where
  | null
  | str (s : String)
  | num (n : Int)
  | arr (elems : List Json)
  | obj (fields : List (String × Json))
deriving Repr

/-- Field lookup in a JSON object body (first occurrence wins). -/
def lookupField (k : String) : List (String × Json) → Option Json
  | [] => none
  | (k2, v) :: rest => if k2 = k then some v else lookupField k rest

/-- Field lookup on a JSON value: only objects have fields. -/
def Json.getField (j : Json) (k : String) : Option Json :=
  match j with
  | .obj fields => lookupField k fields
  | _ => none

/-- Deserialize a JSON string. -/
def deserString : Json → Option String
  | .str s => some s
  | _ => none

/-- Deserialize a JSON integer. -/
def deserInt : Json → Option Int
  | .num n => some n
  | _ => none

/-- serde semantics of an Option field: a missing field and an explicit null
both give none; any other value must deserialize. -/
def deserOptField {α : Type} (deser : Json → Option α) (j : Json) (k : String) :
    Option (Option α) :=
  match j.getField k with
  | none => some none
  | some .null => some none
  | some v => (deser v).map some

/-- serde serialization of an Option field: none becomes null. -/
def serOpt {α : Type} (ser : α → Json) : Option α → Json
  | none => .null
  | some a => ser a

/-- Deserialize one ExperimentTag object. -/
def deserExperimentTag (j : Json) : Option ExperimentTag :=
  match (j.getField "key").bind deserString, (j.getField "value").bind deserString with
  | some k, some v => some { key := k, value := v }
  | _, _ => none

/-- Serialize one ExperimentTag object. -/
def serExperimentTag (t : ExperimentTag) : Json :=
  .obj [("key", .str t.key), ("value", .str t.value)]

/-- Deserialize a list of ExperimentTag objects elementwise. -/
def deserExperimentTagList : List Json → Option (List ExperimentTag)
  | [] => some []
  | j :: rest =>
    match deserExperimentTag j, deserExperimentTagList rest with
    | some t, some ts => some (t :: ts)
    | _, _ => none

/-- Deserialize a JSON array of ExperimentTag objects. -/
def deserExperimentTags : Json → Option (List ExperimentTag)
  | .arr elems => deserExperimentTagList elems
  | _ => none

/-- Serialize a JSON array of ExperimentTag objects. -/
def serExperimentTags (ts : List ExperimentTag) : Json :=
  .arr (ts.map serExperimentTag)

/-- serde deserialization of the Experiment record from
src/api/experiment.rs: the four string fields are required (ExperimentId is
a transparent string wrapper), the two timestamps and the tag list are
Option fields. -/
def deserExperiment (j : Json) : Option Experiment :=
  match (j.getField "experiment_id").bind deserString,
      (j.getField "name").bind deserString,
      (j.getField "artifact_location").bind deserString,
      (j.getField "lifecycle_stage").bind deserString,
      deserOptField deserInt j "last_update_time",
      deserOptField deserInt j "creation_time",
      deserOptField deserExperimentTags j "tags" with
  | some id, some name, some loc, some stage, some lut, some ct, some tags =>
    some { experiment_id := { val := id }, name := name, artifact_location := loc,
           lifecycle_stage := stage, last_update_time := lut, creation_time := ct,
           tags := tags }
  | _, _, _, _, _, _, _ => none

/-- serde serialization of the Experiment record, fields in declaration
order. -/
def serExperiment (e : Experiment) : Json :=
  .obj [("experiment_id", .str e.experiment_id.val),
        ("name", .str e.name),
        ("artifact_location", .str e.artifact_location),
        ("lifecycle_stage", .str e.lifecycle_stage),
        ("last_update_time", serOpt Json.num e.last_update_time),
        ("creation_time", serOpt Json.num e.creation_time),
        ("tags", serOpt serExperimentTags e.tags)]

/-- The envelope type GetExperimentResponse from src/backend/rest.rs:
deserializing unwraps the "experiment" field. -/
def deserGetExperimentResponse (j : Json) : Option Experiment :=
  (j.getField "experiment").bind deserExperiment

/-- Serialization of the experiment envelope. -/
def serGetExperimentResponse (e : Experiment) : Json :=
  .obj [("experiment", serExperiment e)]

/-- serde serialization of RunStatus (rename_all = UPPERCASE): each variant
becomes its upper-case token. -/
def RunStatus.toWire : RunStatus → String
  | .Running => "RUNNING"
  | .Scheduled => "SCHEDULED"
  | .Finished => "FINISHED"
  | .Failed => "FAILED"
  | .Killed => "KILLED"

/-- serde deserialization of RunStatus: exactly the five upper-case tokens
are accepted, every other string is a deserialization error (none). -/
def RunStatus.fromWire (s : String) : Option RunStatus :=
  if s = "RUNNING" then some .Running
  else if s = "SCHEDULED" then some .Scheduled
  else if s = "FINISHED" then some .Finished
  else if s = "FAILED" then some .Failed
  else if s = "KILLED" then some .Killed
  else none

namespace Rest

/-- RestErrorCode from src/backend/rest.rs. -/
inductive RestErrorCode where
  | ResourceAlreadyExists
  | ResourceDoesNotExist
  | InvalidParameterValue
  | Unknown (code : String)
deriving DecidableEq, Repr

/-- impl From for RestErrorCode: the three recognized codes, any other
string kept verbatim. -/
def RestErrorCode.fromStr (value : String) : RestErrorCode :=
  if value = "RESOURCE_ALREADY_EXISTS" then .ResourceAlreadyExists
  else if value = "RESOURCE_DOES_NOT_EXIST" then .ResourceDoesNotExist
  else if value = "INVALID_PARAMETER_VALUE" then .InvalidParameterValue
  else .Unknown value

/-- RestError from src/backend/rest.rs; the Unknown variant keeps the raw
body (embedded at the JSON level, its textual form being serde territory). -/
inductive RestError where
  | Known (status : Nat) (code : RestErrorCode) (message : String)
  | Unknown (status : Nat) (body : Json)
deriving Repr

/-- An opaque anyhow error: either a wrapped RestError or a context
message. -/
inductive AnyErr where
  | rest (e : RestError)
  | message (s : String)
deriving Repr

/-- CreateError from src/api/error.rs. -/
inductive CreateError where
  | AlreadyExists (name : String)
  | Storage (e : AnyErr)
deriving Repr

/-- BatchError from src/api/error.rs (constructor names sic from the
source). -/
inductive BatchError where
  | ToManyItems (n : Nat)
  | ToManyMetrics (n : Nat)
  | ToManyParams (n : Nat)
  | ToManyTags (n : Nat)
  | Storage (e : AnyErr)
deriving Repr

/-- What a stub transport hands back for one HTTP exchange: a success body
or an error status with its body. -/
inductive HttpResponse where
  | success (body : Json)
  | failure (status : Nat) (body : Json)
deriving Repr

/-- serde deserialization of RestErrorResponse: the error_code field is a
string run through RestErrorCode's From impl, message a plain string. -/
def deserRestErrorResponse (body : Json) : Option (RestErrorCode × String) :=
  match (body.getField "error_code").bind deserString,
      (body.getField "message").bind deserString with
  | some c, some m => some (RestErrorCode.fromStr c, m)
  | _, _ => none

/-- parse_error from src/backend/rest.rs: an error body parsing as the
envelope becomes Known, anything else Unknown with the raw body. -/
def parse_error (status : Nat) (body : Json) : RestError :=
  match deserRestErrorResponse body with
  | some r => .Known status r.1 r.2
  | none => .Unknown status body

/-- Server::execute URL building: the base URL and the endpoint path joined
with a single slash. -/
def requestUrl (api_url path : String) : String :=
  api_url ++ "/" ++ path

/-- Endpoint PATH constants from src/backend/rest.rs. -/
def CreateExperiment.PATH : String := "2.0/mlflow/experiments/create"

/-- PATH of the GetExperiment endpoint. -/
def GetExperiment.PATH : String := "2.0/mlflow/experiments/get"

/-- PATH of the UpdateExperiment endpoint. -/
def UpdateExperiment.PATH : String := "2.0/mlflow/experiments/update"

/-- PATH of the ListExperiments endpoint. -/
def ListExperiments.PATH : String := "2.0/mlflow/experiments/list"

/-- PATH of the GetExperimentByName endpoint. -/
def GetExperimentByName.PATH : String := "2.0/mlflow/experiments/get-by-name"

/-- PATH of the DeleteExperiment endpoint. -/
def DeleteExperiment.PATH : String := "2.0/mlflow/experiments/delete"

/-- PATH of the CreateRun endpoint. -/
def CreateRun.PATH : String := "2.0/mlflow/runs/create"

/-- PATH of the DeleteRun endpoint. -/
def DeleteRun.PATH : String := "2.0/mlflow/runs/delete"

/-- PATH of the GetRun endpoint, as written in the source. -/
def GetRun.PATH : String := ""

/-- PATH of the LogParam endpoint. -/
def LogParam.PATH : String := "2.0/mlflow/runs/log-parameter"

/-- PATH of the LogMetric endpoint. -/
def LogMetric.PATH : String := "2.0/mlflow/runs/log-metric"

/-- PATH of the UpdateRun endpoint. -/
def UpdateRun.PATH : String := "2.0/mlflow/runs/update"

/-- PATH of the LogBatch endpoint. -/
def LogBatch.PATH : String := "2.0/mlflow/runs/log-batch"

/-- PATH of the SearchRuns endpoint, as written in the source. -/
def SearchRuns.PATH : String := ""

/-- PATH of the ListRunInfos endpoint: defined in the source as
SearchRuns::PATH. -/
def ListRunInfos.PATH : String := SearchRuns.PATH

/-- PATH of the GetHistory endpoint. -/
def GetHistory.PATH : String := "2.0/mlflow/metrics/get-history"

/-- serde deserialization of CreateExperimentResponse (the experiment_id
envelope). -/
def deserCreateExperimentResponse (body : Json) : Option ExperimentId :=
  ((body.getField "experiment_id").bind deserString).map (fun s => { val := s })

/-- Server::create_experiment against a stub transport response: an HTTP
error is parsed and mapped through the operation's error handler
(ResourceAlreadyExists becomes AlreadyExists with the requested name,
everything else Storage); a success body is deserialized and unwrapped. -/
def Server.create_experiment (name : String) (resp : HttpResponse) :
    Except CreateError ExperimentId :=
  match resp with
  | .failure status body =>
    let error := parse_error status body
    .error (match error with
      | .Known _ RestErrorCode.ResourceAlreadyExists _ => .AlreadyExists name
      | _ => .Storage (.rest error))
  | .success body =>
    match deserCreateExperimentResponse body with
    | some id => .ok id
    | none => .error (.Storage (.message "deserializing response failed"))

/-- Server::log_batch from src/backend/rest.rs, instrumented with the list
of transport invocations it makes: the four limit checks run in source
order before any network call; only when all pass is the LogBatch request
executed, with transport outcome t. -/
def Server.log_batch (run : RunId) (metrics : List Metric) (params : List Param)
    (tags : List RunTag) (t : Except RestError Unit) :
    Except BatchError Unit × List Call :=
  if metrics.length > limits.BATCH_METRICS then
    (.error (.ToManyMetrics metrics.length), [])
  else if params.length > limits.BATCH_PARAMS then
    (.error (.ToManyParams params.length), [])
  else if tags.length > limits.BATCH_TAGS then
    (.error (.ToManyTags tags.length), [])
  else
    let total_len := metrics.length + params.length + tags.length
    if total_len > limits.BATCH_TOTAL then
      (.error (.ToManyItems total_len), [])
    else
      match t with
      | .error e => (.error (.Storage (.rest e)), [Call.log_batch run metrics params tags])
      | .ok _ => (.ok (), [Call.log_batch run metrics params tags])

end Rest

namespace Storage

/-- BufferedMetric from src/storage/server.rs. -/
structure BufferedMetric where
  name : String
  value : F64
  timestamp : Nat
  step : Nat
deriving DecidableEq, Repr

/-- The log-batch request body of src/storage/server.rs (its params slice is
always empty there). -/
structure LogBatchRequest where
  run_id : String
  metrics : List BufferedMetric
  params : List Param
deriving DecidableEq, Repr

/-- Server::log_batch from src/storage/server.rs, embedded with fuel: the
Rust while-loop runs until `metrics` is empty, sending the first
min(len, 1000) metrics each iteration, and exits early only when
validate_response fails; crucially the loop body never removes anything
from `metrics`.  The transport stub answers invocation k with transport k
(true = 2xx).  The value none means the fuel ran out, i.e. the loop is
still running after that many iterations. -/
def Server.log_batch (run : String) (metrics : List BufferedMetric)
    (transport : Nat → Bool) (k : Nat) :
    Nat → Option (Except String (List LogBatchRequest))
  | 0 => none
  | fuel + 1 =>
    if metrics.isEmpty then some (.ok [])
    else
      let count := min metrics.length 1000
      let request : LogBatchRequest :=
        { run_id := run, metrics := metrics.take count, params := [] }
      if transport k then
        match Server.log_batch run metrics transport (k + 1) fuel with
        | none => none
        | some (.ok reqs) => some (.ok (request :: reqs))
        | some (.error e) => some (.error e)
      else some (.error "request failed")

end Storage

namespace client

/-- CreateExperimentError from src/storage/errors.rs; the opaque anyhow
payload of Storage is embedded as its message. -/
inductive CreateExperimentError where
  | AlreadyExists (name : String)
  | Storage (msg : String)
deriving DecidableEq, Repr

/-- GetExperimentError from src/storage/errors.rs. -/
inductive GetExperimentError where
  | DoesNotExist (name : String)
  | Storage (msg : String)
deriving DecidableEq, Repr

/-- Outcome of a method that may abort the process instead of returning:
fatal carries the error the code feeds to its fatal-exit macro. -/
inductive PanicOr (ε : Type) (α : Type) where
  | fatal (e : ε)
  | ok (value : α)
deriving DecidableEq, Repr

/-- Experiment record from src/storage/primitive.rs (the fields the wrapper
reads). -/
structure Experiment where
  experiment_id : String
  name : String
  artifact_location : String
  lifecycle_stage : String
  last_update_time : Option Int
  creation_time : Option Int
deriving DecidableEq, Repr

/-- The crate-level Experiment wrapper built by Experiment::new: it keeps
the id and name of the primitive record (the storage handle it also keeps
carries no data and is erased here). -/
structure WExperiment where
  id : String
  name : String
deriving DecidableEq, Repr

/-- Experiment::new from src/experiment.rs, as invoked by the wrapper. -/
def Experiment.new (p : Experiment) : WExperiment :=
  { id := p.experiment_id, name := p.name }

/-- Client::try_create_experiment from src/client.rs: propagate the storage
result, wrapping a success. -/
def Client.try_create_experiment
    (storageResult : Except CreateExperimentError Experiment) :
    Except CreateExperimentError WExperiment :=
  storageResult.map Experiment.new

/-- Client::create_experiment from src/client.rs: AlreadyExists becomes
None, a Storage error aborts fatally. -/
def Client.create_experiment
    (storageResult : Except CreateExperimentError Experiment) :
    PanicOr CreateExperimentError (Option WExperiment) :=
  match Client.try_create_experiment storageResult with
  | .ok experiment => .ok (some experiment)
  | .error (.AlreadyExists _) => .ok none
  | .error (.Storage m) => .fatal (.Storage m)

/-- Client::try_get_experiment from src/client.rs. -/
def Client.try_get_experiment
    (storageResult : Except GetExperimentError Experiment) :
    Except GetExperimentError WExperiment :=
  storageResult.map Experiment.new

/-- Client::get_experiment from src/client.rs: DoesNotExist becomes None, a
Storage error aborts fatally. -/
def Client.get_experiment
    (storageResult : Except GetExperimentError Experiment) :
    PanicOr GetExperimentError (Option WExperiment) :=
  match Client.try_get_experiment storageResult with
  | .ok experiment => .ok (some experiment)
  | .error (.DoesNotExist _) => .ok none
  | .error (.Storage m) => .fatal (.Storage m)

/-- Client::try_list_experiments from src/client.rs. -/
def Client.try_list_experiments
    (storageResult : Except String (List Experiment)) :
    Except String (List WExperiment) :=
  storageResult.map (List.map Experiment.new)

/-- Client::list_experiments from src/client.rs: .unwrap() aborts fatally on
any error at all. -/
def Client.list_experiments
    (storageResult : Except String (List Experiment)) :
    PanicOr String (List WExperiment) :=
  match Client.try_list_experiments storageResult with
  | .ok experiments => .ok experiments
  | .error e => .fatal e

end client

/-- The chunk-shape invariant of the TrackingRun metric buffer: at least one
chunk, every chunk except the last full to exactly the per-batch limit, and
every chunk within the limit. -/
def ChunksInv (mb : List (List Metric)) : Prop :=
  mb ≠ [] ∧ (∀ c ∈ mb.dropLast, c.length = limits.BATCH_METRICS) ∧
    (∀ c ∈ mb, c.length ≤ limits.BATCH_METRICS)

/-- The full TrackingRun buffer invariant: param and tag buffers within
their caps and the metric chunks well shaped. -/
def TrackingRun.Inv (tr : TrackingRun) : Prop :=
  tr.param_buffer.length ≤ limits.BATCH_PARAMS ∧
    tr.tag_buffer.length ≤ limits.BATCH_TAGS ∧ ChunksInv tr.metric_buffer

/-- A sequence of n log_metric calls (payloads are irrelevant to the chunk
shape). -/
def metricOps (n : Nat) : List LogOp :=
  List.replicate n (LogOp.metric "metric" { bits := 0 } 0 0)

/-- How one log_metric call changes the list of chunk lengths. -/
def stepLens (ls : List Nat) : List Nat :=
  match ls.getLast? with
  | none => ls
  | some n => if n = limits.BATCH_METRICS then ls ++ [1] else ls.dropLast ++ [n + 1]

/-- Iterated chunk-length evolution. -/
def iterLens : Nat → List Nat → List Nat
  | 0, ls => ls
  | n + 1, ls => iterLens n (stepLens ls)

/-- Concrete RunInfo for exercising the theorems. -/
def testRunInfo : RunInfo :=
  { run_id := { val := "r1" }, run_uuid := "u1", experiment_id := { val := "e1" },
    user_id := "me", status := RunStatus.Running, start_time := 5, end_time := none,
    artifact_uri := "art", lifecycle_stage := "active" }

/-- Concrete post-update RunInfo for exercising the theorems. -/
def testRunInfo2 : RunInfo :=
  { testRunInfo with status := RunStatus.Finished, end_time := some 9 }

/-- Concrete Run for exercising the theorems. -/
def testRun : Run :=
  { info := testRunInfo, data := { metrics := none, params := none, tags := none } }

/-- A stub client on which every call succeeds. -/
def testOracle : ClientOracle String :=
  { create_run := fun _ _ _ => .ok testRun
    log_batch := fun _ _ _ _ => .ok ()
    update_run := fun _ _ _ => .ok testRunInfo2 }

/-- A concrete small TrackingRun buffer state. -/
def testTrackingRun : TrackingRun :=
  { start_time := 5
    param_buffer := [{ key := "p", value := "1" }]
    tag_buffer := [{ key := "t", value := "2" }]
    metric_buffer := [[{ key := "m", value := { bits := 0 }, timestamp := 7, step := 1 }]] }

lemma log_metric_concat_full (tr : TrackingRun) (l : List (List Metric))
    (c : List Metric) (hmb : tr.metric_buffer = l ++ [c])
    (hc : c.length = limits.BATCH_METRICS) (k : String) (v : F64) (s ts : Int) :
    tr.log_metric k v s ts =
      some { tr with metric_buffer :=
        (l ++ [c]) ++ [[{ key := k, value := v, timestamp := ts, step := s }]] } := by
  simp [TrackingRun.log_metric, hmb, hc, List.getLast?_concat, List.dropLast_concat]

lemma log_metric_concat_notfull (tr : TrackingRun) (l : List (List Metric))
    (c : List Metric) (hmb : tr.metric_buffer = l ++ [c])
    (hc : c.length ≠ limits.BATCH_METRICS) (k : String) (v : F64) (s ts : Int) :
    tr.log_metric k v s ts =
      some { tr with metric_buffer :=
        l ++ [c ++ [{ key := k, value := v, timestamp := ts, step := s }]] } := by
  simp [TrackingRun.log_metric, hmb, hc, List.getLast?_concat, List.dropLast_concat]

lemma chunksInv_new : ChunksInv [([] : List Metric)] := by
  refine ⟨by simp, by simp, ?_⟩
  intro c hc
  simp only [List.mem_singleton] at hc
  simp [hc]

lemma inv_new (ts : Int) : (TrackingRun.new ts).Inv := by
  refine ⟨by simp [TrackingRun.new], by simp [TrackingRun.new], ?_⟩
  simpa [TrackingRun.new] using chunksInv_new

lemma apply_inv (tr tr2 : TrackingRun) (op : LogOp) (h : tr.Inv)
    (hop : tr.apply op = some tr2) : tr2.Inv := by
  obtain ⟨hp, ht, hmb⟩ := h
  cases op with
  | param k v =>
    simp only [TrackingRun.apply, TrackingRun.log_param] at hop
    split at hop
    · cases hop
      refine ⟨?_, ht, hmb⟩
      simpa using by omega
    · cases hop
  | tag k v =>
    simp only [TrackingRun.apply, TrackingRun.log_tag] at hop
    split at hop
    · cases hop
      refine ⟨hp, ?_, hmb⟩
      simpa using by omega
    · cases hop
  | metric k v s ts =>
    obtain ⟨hne, hfull, hle⟩ := hmb
    rcases List.eq_nil_or_concat tr.metric_buffer with hnil | ⟨l, c, hcat⟩
    · exact absurd hnil hne
    simp only [List.concat_eq_append] at hcat
    by_cases hc : c.length = limits.BATCH_METRICS
    · rw [TrackingRun.apply, log_metric_concat_full tr l c hcat hc] at hop
      cases hop
      refine ⟨hp, ht, by simp, ?_, ?_⟩
      · intro d hd
        rw [List.dropLast_concat] at hd
        rcases List.mem_append.mp hd with hd | hd
        · exact hfull d (by rw [hcat, List.dropLast_concat]; exact hd)
        · simp only [List.mem_singleton] at hd
          rw [hd]; exact hc
      · intro d hd
        rcases List.mem_append.mp hd with hd | hd
        · exact hle d (hcat ▸ hd)
        · simp only [List.mem_singleton] at hd
          rw [hd]
          simp [limits.BATCH_METRICS]
    · rw [TrackingRun.apply, log_metric_concat_notfull tr l c hcat hc] at hop
      cases hop
      have hclen : c.length < limits.BATCH_METRICS :=
        lt_of_le_of_ne (hle c (by rw [hcat]; simp)) hc
      refine ⟨hp, ht, by simp, ?_, ?_⟩
      · intro d hd
        rw [List.dropLast_concat] at hd
        exact hfull d (by rw [hcat, List.dropLast_concat]; exact hd)
      · intro d hd
        rcases List.mem_append.mp hd with hd | hd
        · exact hle d (by rw [hcat]; exact List.mem_append.mpr (Or.inl hd))
        · simp only [List.mem_singleton] at hd
          rw [hd]
          simp only [List.length_append, List.length_singleton]
          omega

lemma applyAll_inv (ops : List LogOp) (tr tr2 : TrackingRun) (h : tr.Inv)
    (hall : tr.applyAll ops = some tr2) : tr2.Inv := by
  induction ops generalizing tr with
  | nil => cases hall; exact h
  | cons op ops ih =>
    simp only [TrackingRun.applyAll, Option.bind_eq_some] at hall
    obtain ⟨trm, hop, hrest⟩ := hall
    exact ih trm (apply_inv tr trm op h hop) hrest

lemma apply_flatten (tr tr2 : TrackingRun) (op : LogOp) (h : tr.Inv)
    (hop : tr.apply op = some tr2) :
    tr2.metric_buffer.flatten = tr.metric_buffer.flatten ++ loggedMetrics [op] := by
  obtain ⟨hp, ht, hne, hfull, hle⟩ := h
  cases op with
  | param k v =>
    simp only [TrackingRun.apply, TrackingRun.log_param] at hop
    split at hop
    · cases hop; simp [loggedMetrics]
    · cases hop
  | tag k v =>
    simp only [TrackingRun.apply, TrackingRun.log_tag] at hop
    split at hop
    · cases hop; simp [loggedMetrics]
    · cases hop
  | metric k v s ts =>
    rcases List.eq_nil_or_concat tr.metric_buffer with hnil | ⟨l, c, hcat⟩
    · exact absurd hnil hne
    simp only [List.concat_eq_append] at hcat
    by_cases hc : c.length = limits.BATCH_METRICS
    · rw [TrackingRun.apply, log_metric_concat_full tr l c hcat hc] at hop
      cases hop
      simp [hcat, loggedMetrics]
    · rw [TrackingRun.apply, log_metric_concat_notfull tr l c hcat hc] at hop
      cases hop
      simp [hcat, loggedMetrics]

lemma loggedMetrics_cons (op : LogOp) (ops : List LogOp) :
    loggedMetrics (op :: ops) = loggedMetrics [op] ++ loggedMetrics ops := by
  cases op <;> simp [loggedMetrics]

lemma applyAll_flatten (ops : List LogOp) (tr tr2 : TrackingRun) (h : tr.Inv)
    (hall : tr.applyAll ops = some tr2) :
    tr2.metric_buffer.flatten = tr.metric_buffer.flatten ++ loggedMetrics ops := by
  induction ops generalizing tr with
  | nil => cases hall; simp [loggedMetrics]
  | cons op ops ih =>
    simp only [TrackingRun.applyAll, Option.bind_eq_some] at hall
    obtain ⟨trm, hop, hrest⟩ := hall
    rw [loggedMetrics_cons, ih trm (apply_inv tr trm op h hop) hrest,
      apply_flatten tr trm op h hop, List.append_assoc]

/-- Claim C3: every sequence of log_param, log_tag and log_metric calls on a
TrackingRun preserves the buffer invariant: at most 100 params and 100 tags
(a push at the cap fails the fatal assertion, below the cap it appends),
every metric chunk holds at most 1000 metrics, appends go only to the last
chunk (a push either extends the last chunk or opens a fresh chunk after
it), a new chunk is opened exactly when the current chunk holds 1000
metrics, and the concatenation of the chunks is exactly the logged metrics
in call order. -/
theorem C3_tracking_buffer_invariant (ts : Int) (ops : List LogOp)
    (st : TrackingRun) (h : (TrackingRun.new ts).applyAll ops = some st) :
    st.param_buffer.length ≤ limits.BATCH_PARAMS ∧
    st.tag_buffer.length ≤ limits.BATCH_TAGS ∧
    (∀ c ∈ st.metric_buffer, c.length ≤ limits.BATCH_METRICS) ∧
    (∀ c ∈ st.metric_buffer.dropLast, c.length = limits.BATCH_METRICS) ∧
    st.metric_buffer.flatten = loggedMetrics ops ∧
    (∀ k v, st.param_buffer.length = limits.BATCH_PARAMS → st.log_param k v = none) ∧
    (∀ k v, st.param_buffer.length < limits.BATCH_PARAMS →
      st.log_param k v =
        some { st with param_buffer := st.param_buffer ++ [{ key := k, value := v }] }) ∧
    (∀ k v, st.tag_buffer.length = limits.BATCH_TAGS → st.log_tag k v = none) ∧
    (∀ k v s t c, st.metric_buffer.getLast? = some c →
      c.length = limits.BATCH_METRICS →
      st.log_metric k v s t =
        some { st with metric_buffer := st.metric_buffer ++
          [[{ key := k, value := v, timestamp := t, step := s }]] }) ∧
    (∀ k v s t c, st.metric_buffer.getLast? = some c →
      c.length ≠ limits.BATCH_METRICS →
      st.log_metric k v s t =
        some { st with metric_buffer := st.metric_buffer.dropLast ++
          [c ++ [{ key := k, value := v, timestamp := t, step := s }]] }) := by
  obtain ⟨hp, ht, hne, hfull, hle⟩ := applyAll_inv ops (TrackingRun.new ts) st (inv_new ts) h
  have hflat := applyAll_flatten ops (TrackingRun.new ts) st (inv_new ts) h
  refine ⟨hp, ht, hle, hfull, by simpa [TrackingRun.new] using hflat, ?_, ?_, ?_, ?_, ?_⟩
  · intro k v hcap
    simp [TrackingRun.log_param, hcap]
  · intro k v hlt
    simp [TrackingRun.log_param, hlt]
  · intro k v hcap
    simp [TrackingRun.log_tag, hcap]
  · intro k v s t c hg hc
    have hmb := List.dropLast_append_getLast? c hg
    rw [log_metric_concat_full st st.metric_buffer.dropLast c hmb.symm hc, hmb]
  · intro k v s t c hg hc
    have hmb := List.dropLast_append_getLast? c hg
    rw [log_metric_concat_notfull st st.metric_buffer.dropLast c hmb.symm hc]

/-- The call sequence behind the concrete buffer state testTrackingRun. -/
def testOps : List LogOp :=
  [LogOp.param "p" "1", LogOp.tag "t" "2", LogOp.metric "m" { bits := 0 } 1 7]

/-- Witness for C3: the invariant evaluated on the concrete reachable state
testTrackingRun. -/
theorem C3_witness :
    (TrackingRun.new 5).applyAll testOps = some testTrackingRun ∧
    testTrackingRun.param_buffer.length ≤ limits.BATCH_PARAMS ∧
    testTrackingRun.metric_buffer.flatten = loggedMetrics testOps := by
  have h : (TrackingRun.new 5).applyAll testOps = some testTrackingRun := by rfl
  have hc := C3_tracking_buffer_invariant 5 testOps testTrackingRun h
  exact ⟨h, hc.1, hc.2.2.2.2.1⟩

/-- Claim C9: from construction onwards the metric chunk list is never
empty, so the unwrapped accesses to the last chunk inside log_metric always
succeed: on every reachable buffer state log_metric returns a value for all
arguments. -/
theorem C9_log_metric_total (ts : Int) (ops : List LogOp) (st : TrackingRun)
    (h : (TrackingRun.new ts).applyAll ops = some st) :
    st.metric_buffer ≠ [] ∧
    ∀ k v s t, (st.log_metric k v s t).isSome := by
  obtain ⟨-, -, hne, -, -⟩ := applyAll_inv ops (TrackingRun.new ts) st (inv_new ts) h
  refine ⟨hne, ?_⟩
  intro k v s t
  rcases List.eq_nil_or_concat st.metric_buffer with hnil | ⟨l, c, hcat⟩
  · exact absurd hnil hne
  simp only [List.concat_eq_append] at hcat
  by_cases hc : c.length = limits.BATCH_METRICS
  · rw [log_metric_concat_full st l c hcat hc]
    rfl
  · rw [log_metric_concat_notfull st l c hcat hc]
    rfl

/-- Witness for C9: totality of log_metric on the concrete reachable state
testTrackingRun. -/
theorem C9_witness :
    (TrackingRun.new 5).applyAll testOps = some testTrackingRun ∧
    (testTrackingRun.log_metric "x" { bits := 1 } 2 8).isSome := by
  have h : (TrackingRun.new 5).applyAll testOps = some testTrackingRun := by rfl
  exact ⟨h, (C9_log_metric_total 5 testOps testTrackingRun h).2 "x" { bits := 1 } 2 8⟩

lemma flush_chunks_ok {ε : Type} (c : ClientOracle ε) (id : RunId)
    (chunks : List (List Metric))
    (h : ∀ ch ∈ chunks, c.log_batch id ch [] [] = .ok ()) :
    flush_chunks c id chunks =
      (.ok (), chunks.map (fun ch => Call.log_batch id ch [] [])) := by
  induction chunks with
  | nil => rfl
  | cons ch rest ih =>
    simp only [flush_chunks]
    rw [h ch (by simp), ih (fun ch2 hch2 => h ch2 (by simp [hch2]))]
    simp

lemma flush_chunks_error {ε : Type} (c : ClientOracle ε) (id : RunId)
    (pre : List (List Metric)) (chunk : List Metric) (post : List (List Metric))
    (e : ε) (hpre : ∀ ch ∈ pre, c.log_batch id ch [] [] = .ok ())
    (herr : c.log_batch id chunk [] [] = .error e) :
    flush_chunks c id (pre ++ chunk :: post) =
      (.error e, (pre ++ [chunk]).map (fun ch => Call.log_batch id ch [] [])) := by
  induction pre with
  | nil =>
    simp only [List.nil_append, flush_chunks, herr, List.map_cons, List.map_nil]
  | cons ch rest ih =>
    simp only [List.cons_append, flush_chunks, List.append_eq]
    rw [hpre ch (by simp), ih (fun ch2 hch2 => hpre ch2 (by simp [hch2]))]
    simp

lemma log_metric_lens (tr : TrackingRun) (h : tr.metric_buffer ≠ [])
    (k : String) (v : F64) (s ts : Int) :
    ∃ tr2, tr.log_metric k v s ts = some tr2 ∧
      tr2.metric_buffer.map List.length =
        stepLens (tr.metric_buffer.map List.length) ∧
      tr2.metric_buffer ≠ [] := by
  rcases List.eq_nil_or_concat tr.metric_buffer with hnil | ⟨l, c, hcat⟩
  · exact absurd hnil h
  simp only [List.concat_eq_append] at hcat
  by_cases hc : c.length = limits.BATCH_METRICS
  · refine ⟨_, log_metric_concat_full tr l c hcat hc k v s ts, ?_, by simp⟩
    simp [hcat, stepLens, List.getLast?_concat, List.dropLast_concat, hc]
  · refine ⟨_, log_metric_concat_notfull tr l c hcat hc k v s ts, ?_, by simp⟩
    simp [hcat, stepLens, List.getLast?_concat, List.dropLast_concat, hc]

lemma applyAll_metricOps (n : Nat) (tr : TrackingRun) (h : tr.metric_buffer ≠ []) :
    ∃ st, tr.applyAll (metricOps n) = some st ∧
      st.metric_buffer.map List.length =
        iterLens n (tr.metric_buffer.map List.length) ∧
      st.metric_buffer ≠ [] := by
  induction n generalizing tr with
  | zero => exact ⟨tr, rfl, rfl, h⟩
  | succ n ih =>
    obtain ⟨tr2, hstep, hlens, hne⟩ :=
      log_metric_lens tr h "metric" { bits := 0 } 0 0
    obtain ⟨st, hall, hlens2, hne2⟩ := ih tr2 hne
    refine ⟨st, ?_, ?_, hne2⟩
    · simp only [metricOps, List.replicate_succ, TrackingRun.applyAll,
        TrackingRun.apply, hstep, Option.bind_some]
      simpa [metricOps] using hall
    · rw [hlens2, hlens]
      rfl

lemma iterLens_add (a b : Nat) (ls : List Nat) :
    iterLens (a + b) ls = iterLens b (iterLens a ls) := by
  induction a generalizing ls with
  | zero => rw [Nat.zero_add]; rfl
  | succ a ih =>
    have : a + 1 + b = (a + b) + 1 := by omega
    rw [this, iterLens, iterLens, ih]

lemma iterLens_fill (m : Nat) (pre : List Nat) (r : Nat)
    (h : r + m ≤ limits.BATCH_METRICS) :
    iterLens m (pre ++ [r]) = pre ++ [r + m] := by
  induction m generalizing r with
  | zero => rfl
  | succ m ih =>
    have hr : r ≠ limits.BATCH_METRICS := by
      simp only [limits.BATCH_METRICS] at h ⊢
      omega
    rw [iterLens]
    have hstep : stepLens (pre ++ [r]) = pre ++ [r + 1] := by
      simp [stepLens, List.getLast?_concat, List.dropLast_concat, hr]
    rw [hstep, ih (r + 1) (by omega)]
    congr 2
    omega

lemma iterLens_2500 : iterLens 2500 [0] = [1000, 1000, 500] := by
  have h1 : iterLens 1000 [0] = [1000] := by
    simpa using iterLens_fill 1000 [] 0 (by simp [limits.BATCH_METRICS])
  have h2 : iterLens 999 [1000, 1] = [1000, 1000] := by
    simpa using iterLens_fill 999 [1000] 1 (by simp [limits.BATCH_METRICS])
  have h3 : iterLens 499 [1000, 1000, 1] = [1000, 1000, 500] := by
    simpa using iterLens_fill 499 [1000, 1000] 1 (by simp [limits.BATCH_METRICS])
  have e1 : (2500 : Nat) = 1000 + 1500 := by norm_num
  rw [e1, iterLens_add, h1]
  have e2 : (1500 : Nat) = 1 + 1499 := by norm_num
  rw [e2, iterLens_add]
  have hs1 : iterLens 1 [1000] = [1000, 1] := by decide
  rw [hs1]
  have e3 : (1499 : Nat) = 999 + 500 := by norm_num
  rw [e3, iterLens_add, h2]
  have e4 : (500 : Nat) = 1 + 499 := by norm_num
  rw [e4, iterLens_add]
  have hs2 : iterLens 1 [1000, 1000] = [1000, 1000, 1] := by decide
  rw [hs2, h3]

/-- Claim C1: for every TrackingRun buffer state and every client, submit
issues exactly one create_run with the construction-time start_time and no
tags, then one log_batch with all buffered params and tags and no metrics,
then one log_batch per metric chunk in chunk order with exactly that
chunk's metrics, then one update_run to Finished at the current timestamp;
on success it returns the created Run with its info field replaced by the
RunInfo update_run returned; a failing call stops the sequence there and
surfaces that error; and a buffer holding 2500 logged metrics has chunks of
1000, 1000 and 500 metrics, hence exactly three metric log_batch calls of
those sizes, in order. -/
theorem C1_submit_protocol {ε : Type} (tr : TrackingRun) (c : ClientOracle ε)
    (experiment : ExperimentId) (now : Int) :
    (∀ e, c.create_run experiment tr.start_time [] = .error e →
      tr.submit c experiment now =
        (.error e, [Call.create_run experiment tr.start_time []])) ∧
    (∀ run e, c.create_run experiment tr.start_time [] = .ok run →
      c.log_batch run.info.run_id [] tr.param_buffer tr.tag_buffer = .error e →
      tr.submit c experiment now =
        (.error e,
         [Call.create_run experiment tr.start_time [],
          Call.log_batch run.info.run_id [] tr.param_buffer tr.tag_buffer])) ∧
    (∀ run pre chunk post e,
      c.create_run experiment tr.start_time [] = .ok run →
      c.log_batch run.info.run_id [] tr.param_buffer tr.tag_buffer = .ok () →
      tr.metric_buffer = pre ++ chunk :: post →
      (∀ ch ∈ pre, c.log_batch run.info.run_id ch [] [] = .ok ()) →
      c.log_batch run.info.run_id chunk [] [] = .error e →
      tr.submit c experiment now =
        (.error e,
         Call.create_run experiment tr.start_time [] ::
         Call.log_batch run.info.run_id [] tr.param_buffer tr.tag_buffer ::
         (pre ++ [chunk]).map (fun ch => Call.log_batch run.info.run_id ch [] []))) ∧
    (∀ run e,
      c.create_run experiment tr.start_time [] = .ok run →
      c.log_batch run.info.run_id [] tr.param_buffer tr.tag_buffer = .ok () →
      (∀ ch ∈ tr.metric_buffer, c.log_batch run.info.run_id ch [] [] = .ok ()) →
      c.update_run run.info.run_id RunStatus.Finished now = .error e →
      tr.submit c experiment now =
        (.error e,
         Call.create_run experiment tr.start_time [] ::
         Call.log_batch run.info.run_id [] tr.param_buffer tr.tag_buffer ::
         (tr.metric_buffer.map (fun ch => Call.log_batch run.info.run_id ch [] []) ++
          [Call.update_run run.info.run_id RunStatus.Finished now]))) ∧
    (∀ run info,
      c.create_run experiment tr.start_time [] = .ok run →
      c.log_batch run.info.run_id [] tr.param_buffer tr.tag_buffer = .ok () →
      (∀ ch ∈ tr.metric_buffer, c.log_batch run.info.run_id ch [] [] = .ok ()) →
      c.update_run run.info.run_id RunStatus.Finished now = .ok info →
      tr.submit c experiment now =
        (.ok { run with info := info },
         Call.create_run experiment tr.start_time [] ::
         Call.log_batch run.info.run_id [] tr.param_buffer tr.tag_buffer ::
         (tr.metric_buffer.map (fun ch => Call.log_batch run.info.run_id ch [] []) ++
          [Call.update_run run.info.run_id RunStatus.Finished now]))) ∧
    (∀ ts st, (TrackingRun.new ts).applyAll (metricOps 2500) = some st →
      st.metric_buffer.map List.length = [1000, 1000, 500]) := by
  refine ⟨?_, ?_, ?_, ?_, ?_, ?_⟩
  · intro e hcr
    simp [TrackingRun.submit, hcr]
  · intro run e hcr hpt
    simp [TrackingRun.submit, hcr, hpt]
  · intro run pre chunk post e hcr hpt hmb hpre herr
    simp only [TrackingRun.submit, hcr, hpt, hmb,
      flush_chunks_error c run.info.run_id pre chunk post e hpre herr]
  · intro run e hcr hpt hchunks hupd
    simp only [TrackingRun.submit, hcr, hpt,
      flush_chunks_ok c run.info.run_id tr.metric_buffer hchunks, hupd]
  · intro run info hcr hpt hchunks hupd
    simp only [TrackingRun.submit, hcr, hpt,
      flush_chunks_ok c run.info.run_id tr.metric_buffer hchunks, hupd]
  · intro ts st h
    obtain ⟨st2, hall, hlens, -⟩ :=
      applyAll_metricOps 2500 (TrackingRun.new ts) (by simp [TrackingRun.new])
    rw [hall] at h
    cases h
    rw [hlens]
    simpa [TrackingRun.new] using iterLens_2500

/-- Witness for C1: the full success path evaluated on the concrete buffer
testTrackingRun against the all-success stub client. -/
theorem C1_witness :
    testTrackingRun.submit testOracle { val := "e1" } 9 =
      (.ok { testRun with info := testRunInfo2 },
       [Call.create_run { val := "e1" } 5 [],
        Call.log_batch { val := "r1" } [] testTrackingRun.param_buffer
          testTrackingRun.tag_buffer,
        Call.log_batch { val := "r1" }
          [{ key := "m", value := { bits := 0 }, timestamp := 7, step := 1 }] [] [],
        Call.update_run { val := "r1" } RunStatus.Finished 9]) := by
  have h := (C1_submit_protocol testTrackingRun testOracle { val := "e1" } 9).2.2.2.2.1
    testRun testRunInfo2 (by rfl) (by rfl)
    (by intro ch hch; rfl) (by rfl)
  simpa [testTrackingRun, testRun, testRunInfo2, testRunInfo, testOracle] using h

/-- Claim C2: the REST backend's log_batch checks the size limits before
any HTTP request, in source order: metrics over 1000, else params over 100,
else tags over 100, else combined over 1000; a violated limit yields the
matching error with an empty transport trace; within the limits exactly one
transport call carrying the full arguments is made; in particular 1001
metrics alone yield ToManyMetrics, and 999 metrics + 1 param + 1 tag yield
ToManyItems 1001. -/
theorem C2_log_batch_limit_checks (run : RunId) (metrics : List Metric)
    (params : List Param) (tags : List RunTag) (t : Except Rest.RestError Unit) :
    (metrics.length > limits.BATCH_METRICS →
      Rest.Server.log_batch run metrics params tags t =
        (.error (.ToManyMetrics metrics.length), [])) ∧
    (metrics.length ≤ limits.BATCH_METRICS → params.length > limits.BATCH_PARAMS →
      Rest.Server.log_batch run metrics params tags t =
        (.error (.ToManyParams params.length), [])) ∧
    (metrics.length ≤ limits.BATCH_METRICS → params.length ≤ limits.BATCH_PARAMS →
      tags.length > limits.BATCH_TAGS →
      Rest.Server.log_batch run metrics params tags t =
        (.error (.ToManyTags tags.length), [])) ∧
    (metrics.length ≤ limits.BATCH_METRICS → params.length ≤ limits.BATCH_PARAMS →
      tags.length ≤ limits.BATCH_TAGS →
      metrics.length + params.length + tags.length > limits.BATCH_TOTAL →
      Rest.Server.log_batch run metrics params tags t =
        (.error (.ToManyItems (metrics.length + params.length + tags.length)), [])) ∧
    (metrics.length ≤ limits.BATCH_METRICS → params.length ≤ limits.BATCH_PARAMS →
      tags.length ≤ limits.BATCH_TAGS →
      metrics.length + params.length + tags.length ≤ limits.BATCH_TOTAL →
      (Rest.Server.log_batch run metrics params tags t).2 =
        [Call.log_batch run metrics params tags]) ∧
    (∀ m : Metric, Rest.Server.log_batch run (List.replicate 1001 m) [] [] t =
      (.error (.ToManyMetrics 1001), [])) ∧
    (∀ (m : Metric) (p : Param) (tg : RunTag),
      Rest.Server.log_batch run (List.replicate 999 m) [p] [tg] t =
        (.error (.ToManyItems 1001), [])) := by
  have hmet : ∀ (ms : List Metric) (ps : List Param) (tg : List RunTag),
      ms.length > limits.BATCH_METRICS →
      Rest.Server.log_batch run ms ps tg t =
        (.error (.ToManyMetrics ms.length), []) := by
    intro ms ps tg h1
    simp [Rest.Server.log_batch, h1]
  have hitems : ∀ (ms : List Metric) (ps : List Param) (tg : List RunTag),
      ms.length ≤ limits.BATCH_METRICS → ps.length ≤ limits.BATCH_PARAMS →
      tg.length ≤ limits.BATCH_TAGS →
      ms.length + ps.length + tg.length > limits.BATCH_TOTAL →
      Rest.Server.log_batch run ms ps tg t =
        (.error (.ToManyItems (ms.length + ps.length + tg.length)), []) := by
    intro ms ps tg h1 h2 h3 h4
    simp [Rest.Server.log_batch, Nat.not_lt.mpr h1, Nat.not_lt.mpr h2,
      Nat.not_lt.mpr h3, h4]
  refine ⟨hmet metrics params tags, ?_, ?_, hitems metrics params tags, ?_, ?_, ?_⟩
  · intro h1 h2
    simp [Rest.Server.log_batch, Nat.not_lt.mpr h1, h2]
  · intro h1 h2 h3
    simp [Rest.Server.log_batch, Nat.not_lt.mpr h1, Nat.not_lt.mpr h2, h3]
  · intro h1 h2 h3 h4
    cases t <;>
      simp [Rest.Server.log_batch, Nat.not_lt.mpr h1, Nat.not_lt.mpr h2,
        Nat.not_lt.mpr h3, Nat.not_lt.mpr h4]
  · intro m
    have hlen : (List.replicate 1001 m).length = 1001 := List.length_replicate 1001 m
    have h := hmet (List.replicate 1001 m) [] []
      (by rw [hlen]; norm_num [limits.BATCH_METRICS])
    rw [hlen] at h
    exact h
  · intro m p tg
    have hlen : (List.replicate 999 m).length = 999 := List.length_replicate 999 m
    have h := hitems (List.replicate 999 m) [p] [tg]
      (by rw [hlen]; norm_num [limits.BATCH_METRICS])
      (by norm_num [limits.BATCH_PARAMS])
      (by norm_num [limits.BATCH_TAGS])
      (by rw [hlen]; norm_num [limits.BATCH_TOTAL])
    rw [hlen] at h
    have hsum : (999 : Nat) + ([p] : List Param).length + ([tg] : List RunTag).length = 1001 := by
      rfl
    rw [hsum] at h
    exact h

/-- Concrete metric for exercising the theorems. -/
def testMetric : Metric :=
  { key := "m", value := { bits := 0 }, timestamp := 0, step := 0 }

/-- Witness for C2: the metrics limit violated at 1001 concrete metrics,
with no transport invocation. -/
theorem C2_witness :
    (List.replicate 1001 testMetric).length > limits.BATCH_METRICS ∧
    Rest.Server.log_batch { val := "r" } (List.replicate 1001 testMetric) [] []
        (.ok ()) =
      (.error (.ToManyMetrics 1001), []) := by
  have hlen : (List.replicate 1001 testMetric).length = 1001 :=
    List.length_replicate 1001 testMetric
  have hgt : (List.replicate 1001 testMetric).length > limits.BATCH_METRICS := by
    rw [hlen]; norm_num [limits.BATCH_METRICS]
  have h := (C2_log_batch_limit_checks { val := "r" } (List.replicate 1001 testMetric)
    [] [] (.ok ())).1 hgt
  rw [hlen] at h
  exact ⟨hgt, h⟩

/-- Claim C4 (refuting the stated termination): the storage backend's
chunked flush Server::log_batch never terminates on a non-empty metrics
vector when the transport keeps succeeding, because the loop body never
removes the sent chunk from the vector; for every fuel bound the loop is
still running. -/
theorem C4_storage_log_batch_no_termination (fuel k : Nat) (run : String)
    (m : Storage.BufferedMetric) (ms : List Storage.BufferedMetric) :
    Storage.Server.log_batch run (m :: ms) (fun _ => true) k fuel = none := by
  induction fuel generalizing k with
  | zero => rfl
  | succ fuel ih =>
    simp [Storage.Server.log_batch, ih]

/-- Claim C5: when the transport reports an HTTP error whose body parses as
the error envelope, create_experiment maps RESOURCE_ALREADY_EXISTS to
AlreadyExists carrying the requested name, and any unrecognized error_code
string is preserved verbatim inside the Unknown code of the resulting
Storage error. -/
theorem C5_create_experiment_code_mapping :
    (∀ (status : Nat) (name msg : String) (body : Json),
      Rest.deserRestErrorResponse body = some (.ResourceAlreadyExists, msg) →
      Rest.Server.create_experiment name (.failure status body) =
        .error (.AlreadyExists name)) ∧
    (∀ s : String, s ≠ "RESOURCE_ALREADY_EXISTS" → s ≠ "RESOURCE_DOES_NOT_EXIST" →
      s ≠ "INVALID_PARAMETER_VALUE" →
      Rest.RestErrorCode.fromStr s = .Unknown s) ∧
    (∀ (status : Nat) (name msg s : String),
      s ≠ "RESOURCE_ALREADY_EXISTS" → s ≠ "RESOURCE_DOES_NOT_EXIST" →
      s ≠ "INVALID_PARAMETER_VALUE" →
      Rest.Server.create_experiment name (.failure status
          (Json.obj [("error_code", Json.str s), ("message", Json.str msg)])) =
        .error (.Storage (.rest (.Known status (.Unknown s) msg)))) := by
  refine ⟨?_, ?_, ?_⟩
  · intro status name msg body h
    simp [Rest.Server.create_experiment, Rest.parse_error, h]
  · intro s h1 h2 h3
    simp [Rest.RestErrorCode.fromStr, h1, h2, h3]
  · intro status name msg s h1 h2 h3
    simp [Rest.Server.create_experiment, Rest.parse_error,
      Rest.deserRestErrorResponse, Json.getField, lookupField, deserString,
      Rest.RestErrorCode.fromStr, h1, h2, h3]

/-- Witness for C5: HTTP 400 with the RESOURCE_ALREADY_EXISTS envelope makes
create_experiment of foo yield AlreadyExists foo. -/
theorem C5_witness :
    Rest.deserRestErrorResponse
        (Json.obj [("error_code", Json.str "RESOURCE_ALREADY_EXISTS"),
          ("message", Json.str "x")]) =
      some (.ResourceAlreadyExists, "x") ∧
    Rest.Server.create_experiment "foo" (.failure 400
        (Json.obj [("error_code", Json.str "RESOURCE_ALREADY_EXISTS"),
          ("message", Json.str "x")])) =
      .error (.AlreadyExists "foo") := by
  have h : Rest.deserRestErrorResponse
      (Json.obj [("error_code", Json.str "RESOURCE_ALREADY_EXISTS"),
        ("message", Json.str "x")]) = some (.ResourceAlreadyExists, "x") := by
    simp [Rest.deserRestErrorResponse, Json.getField, lookupField, deserString,
      Rest.RestErrorCode.fromStr]
  exact ⟨h, C5_create_experiment_code_mapping.1 400 "foo" "x" _ h⟩

/-- Claim C6 (refuting the stated search path): the REST backend joins the
base URL and the endpoint path with a single slash, but the PATH constant
of SearchRuns (shared by ListRunInfos) is the empty string, not the wire
table's 2.0/mlflow/runs/search, so both operations post to the bare base
URL followed by a slash. -/
theorem C6_search_runs_path_bug :
    Rest.requestUrl "http://127.0.0.1:5000/api" Rest.SearchRuns.PATH =
      "http://127.0.0.1:5000/api/" ∧
    Rest.ListRunInfos.PATH = Rest.SearchRuns.PATH ∧
    Rest.SearchRuns.PATH ≠ "2.0/mlflow/runs/search" ∧
    Rest.requestUrl "http://127.0.0.1:5000/api" Rest.CreateExperiment.PATH =
      "http://127.0.0.1:5000/api/2.0/mlflow/experiments/create" := by
  exact ⟨rfl, rfl, by decide, rfl⟩

/-- Claim C8: RunStatus serializes each variant to its upper-case token,
deserializing each token returns the corresponding variant, and every other
string fails deserialization instead of defaulting. -/
theorem C8_run_status_tokens :
    (RunStatus.toWire .Running = "RUNNING" ∧ RunStatus.toWire .Scheduled = "SCHEDULED" ∧
     RunStatus.toWire .Finished = "FINISHED" ∧ RunStatus.toWire .Failed = "FAILED" ∧
     RunStatus.toWire .Killed = "KILLED") ∧
    (∀ st : RunStatus, RunStatus.fromWire (RunStatus.toWire st) = some st) ∧
    (∀ s : String,
      s ∉ ["RUNNING", "SCHEDULED", "FINISHED", "FAILED", "KILLED"] →
      RunStatus.fromWire s = none) := by
  refine ⟨⟨rfl, rfl, rfl, rfl, rfl⟩, ?_, ?_⟩
  · intro st
    cases st <;> rfl
  · intro s hs
    simp only [List.mem_cons, List.not_mem_nil, or_false, not_or] at hs
    obtain ⟨h1, h2, h3, h4, h5⟩ := hs
    simp [RunStatus.fromWire, h1, h2, h3, h4, h5]

/-- Witness for C8: an unknown token is rejected. -/
theorem C8_witness :
    "BANANA" ∉ ["RUNNING", "SCHEDULED", "FINISHED", "FAILED", "KILLED"] ∧
    RunStatus.fromWire "BANANA" = none := by
  refine ⟨by decide, C8_run_status_tokens.2.2 "BANANA" (by decide)⟩

/-- Claim C10: the convenience wrapper returns None from create_experiment
exactly on AlreadyExists and from get_experiment exactly on DoesNotExist,
aborts fatally on Storage errors there, and list_experiments aborts fatally
on every error; the case equations below are exhaustive over the storage
outcome. -/
theorem C10_wrapper_error_policy :
    (∀ n, client.Client.create_experiment (.error (.AlreadyExists n)) = .ok none) ∧
    (∀ m, client.Client.create_experiment (.error (.Storage m)) =
      .fatal (.Storage m)) ∧
    (∀ p, client.Client.create_experiment (.ok p) =
      .ok (some (client.Experiment.new p))) ∧
    (∀ n, client.Client.get_experiment (.error (.DoesNotExist n)) = .ok none) ∧
    (∀ m, client.Client.get_experiment (.error (.Storage m)) =
      .fatal (.Storage m)) ∧
    (∀ p, client.Client.get_experiment (.ok p) =
      .ok (some (client.Experiment.new p))) ∧
    (∀ e, client.Client.list_experiments (.error e) = .fatal e) ∧
    (∀ l, client.Client.list_experiments (.ok l) =
      .ok (l.map client.Experiment.new)) :=
  ⟨fun _ => rfl, fun _ => rfl, fun _ => rfl, fun _ => rfl, fun _ => rfl,
   fun _ => rfl, fun _ => rfl, fun _ => rfl⟩

lemma deserExperimentTag_ser (t : ExperimentTag) :
    deserExperimentTag (serExperimentTag t) = some t := by
  simp [deserExperimentTag, serExperimentTag, Json.getField, lookupField,
    deserString]

lemma deserExperimentTagList_ser (ts : List ExperimentTag) :
    deserExperimentTagList (ts.map serExperimentTag) = some ts := by
  induction ts with
  | nil => rfl
  | cons t ts ih =>
    simp [deserExperimentTagList, deserExperimentTag_ser, ih]

lemma deserExperiment_ser (e : Experiment) :
    deserExperiment (serExperiment e) = some e := by
  obtain ⟨⟨id⟩, name, loc, stage, lut, ct, tags⟩ := e
  cases lut <;> cases ct <;> cases tags <;>
    simp [deserExperiment, serExperiment, Json.getField, lookupField,
      deserString, deserInt, deserOptField, serOpt, deserExperimentTags,
      serExperimentTags, deserExperimentTagList_ser]

/-- Claim C7: deserializing a valid experiment envelope, re-serializing the
result and deserializing again yields the record of the first
deserialization; the optional creation_time, last_update_time and tags
fields may be absent from the input. -/
theorem C7_experiment_roundtrip (j : Json) (e : Experiment)
    (_h : deserGetExperimentResponse j = some e) :
    deserGetExperimentResponse (serGetExperimentResponse e) = some e := by
  simp [deserGetExperimentResponse, serGetExperimentResponse, Json.getField,
    lookupField, deserExperiment_ser]

/-- The experiment envelope of the repo's own parse test, with the three
optional fields absent. -/
def testExperimentJson : Json :=
  Json.obj [("experiment", Json.obj
    [("experiment_id", Json.str "1"),
     ("name", Json.str "T1"),
     ("artifact_location", Json.str "./mlruns/1"),
     ("lifecycle_stage", Json.str "active")])]

/-- The record the test envelope deserializes to. -/
def testExperiment : Experiment :=
  { experiment_id := { val := "1" }, name := "T1",
    artifact_location := "./mlruns/1", lifecycle_stage := "active",
    last_update_time := none, creation_time := none, tags := none }

/-- Witness for C7: the round trip evaluated on the repo's own test
envelope, whose optional fields are absent. -/
theorem C7_witness :
    deserGetExperimentResponse testExperimentJson = some testExperiment ∧
    deserGetExperimentResponse (serGetExperimentResponse testExperiment) =
      some testExperiment := by
  have h : deserGetExperimentResponse testExperimentJson = some testExperiment := by
    simp [testExperimentJson, testExperiment, deserGetExperimentResponse,
      deserExperiment, Json.getField, lookupField, deserString, deserOptField,
      deserInt, deserExperimentTags]
  exact ⟨h, C7_experiment_roundtrip testExperimentJson testExperiment h⟩

end Mlflow
